import Mathlib

/-!
Formal model of the trade-lifecycle core of the EarthZetaOrg ai-trading-bot:
the exit-decision engine (ROI table, stoploss, trailing stop, sell signal),
the trade state machine, the bounded-retry execution of adapter calls, the
backtest simulator with admission control, and the edge position sizer.
The repository ships only the documentation, configuration template and
deployment scripts of the engine; every operation below is therefore modelled
from the specification text, with prices and ratios as rationals and
timestamps in minutes.
-/

/-- Modelled from the spec: reasons an exit decision can carry
(the engine code itself is not in the repository). -/
inductive SellReason
  | ROI
  | STOPLOSS
  | TRAILING_STOP_LOSS
  | SELL_SIGNAL
  | FORCE_SELL
  | EMERGENCY_SELL
  deriving DecidableEq, Repr

/-- Modelled from the spec: the engine output, `HOLD` or `EXIT(reason)`. -/
inductive SellDecision
  | hold
  | exit_with (reason : SellReason)
  deriving DecidableEq, Repr

/-- Modelled from the spec: a candle (pair, timestamp in minutes, OHLCV). -/
structure Candle where
  pair : String
  timestamp : Nat
  open_price : ℚ
  high : ℚ
  low : ℚ
  close : ℚ
  volume : ℚ
  deriving DecidableEq, Repr

/-- Modelled from the spec: stoploss configuration — fixed negative fraction,
trailing flag, trailing offset, trailing-only-after-offset flag (field names
follow the configuration template in the repository). -/
structure StoplossConfig where
  stoploss : ℚ
  trailing_stop : Bool
  trailing_stop_positive : ℚ
  trailing_stop_positive_offset : ℚ
  trailing_only_offset_is_reached : Bool
  deriving DecidableEq, Repr

/-- Modelled from the spec: the configuration consumed by the exit decision
engine — ROI table, stoploss config, fee rate and the experimental flags. -/
structure ExitConfig where
  minimal_roi : List (Nat × ℚ)
  stop : StoplossConfig
  fee : ℚ
  sell_profit_only : Bool
  ignore_roi_if_buy_signal : Bool
  deriving DecidableEq, Repr

/-- Modelled from the spec: the trade record shared by the live side and the
simulator — pair, open rate, amount, stake, open timestamp, current
stoploss rate, extrema observed since open, and closing data. -/
structure Trade where
  id : Nat
  pair : String
  open_rate : ℚ
  amount : ℚ
  stake_amount : ℚ
  open_timestamp : Nat
  stoploss_rate : ℚ
  max_rate : ℚ
  min_rate : ℚ
  is_open : Bool
  close_timestamp : Option Nat
  close_rate : Option ℚ
  sell_reason : Option SellReason
  deriving DecidableEq, Repr

/-- Modelled from the spec: the static stoploss value
`open_rate * (1 + stoploss)` (stoploss is negative). -/
def static_stoploss_rate (open_rate stoploss : ℚ) : ℚ :=
  open_rate * (1 + stoploss)

/-- Modelled from the spec: the trailing update applies when trailing is
enabled and (trailing-only-after-offset is false OR
`max_rate / open_rate - 1 ≥ trailing_stop_positive_offset`). -/
def trailing_reached (s : StoplossConfig) (open_rate max_rate : ℚ) : Bool :=
  s.trailing_stop &&
    (!s.trailing_only_offset_is_reached ||
      decide (s.trailing_stop_positive_offset ≤ max_rate / open_rate - 1))

/-- Modelled from the spec: step 1 of the engine — update the observed
extrema with the current candle. -/
def update_rates (t : Trade) (c : Candle) : Trade :=
  { t with max_rate := max t.max_rate c.high, min_rate := min t.min_rate c.low }

/-- Modelled from the spec: step 2 of the engine — recompute the effective
stoploss rate from a trade whose extrema are already updated: ratchet with
`max_rate * (1 - trailing_stop_positive)` when the trailing update applies,
otherwise keep the static value. -/
def updated_stoploss (s : StoplossConfig) (t : Trade) : ℚ :=
  if trailing_reached s t.open_rate t.max_rate then
    max t.stoploss_rate (t.max_rate * (1 - s.trailing_stop_positive))
  else
    static_stoploss_rate t.open_rate s.stoploss

/-- Modelled from the spec: steps 1–2 of the engine — the updated trade
snapshot returned alongside the decision. -/
def process_candle (cfg : ExitConfig) (t : Trade) (c : Candle) : Trade :=
  let t1 := update_rates t c
  { t1 with stoploss_rate := updated_stoploss cfg.stop t1 }

/-- Modelled from the spec: fee-adjusted profit ratio of a position opened at
`open_rate` when valued at `rate`. -/
def current_profit (fee open_rate rate : ℚ) : ℚ :=
  (rate * (1 - fee) - open_rate * (1 + fee)) / (open_rate * (1 + fee))

/-- Modelled from the spec: ROI table lookup — among the entries whose
threshold is at most the elapsed minutes, pick the one with the largest key
and return its minimal profit ratio. -/
def roi_lookup (minimal_roi : List (Nat × ℚ)) (elapsed : Nat) : Option ℚ :=
  ((minimal_roi.filter (fun kv => decide (kv.1 ≤ elapsed))).argmax
      (fun kv => kv.1)).map (fun kv => kv.2)

/-- Modelled from the spec: step 4 of the engine — the ROI exit fires when
the looked-up threshold value is reached by the profit ratio, unless
`ignore_roi_if_buy_signal` is set and a buy signal is present. -/
def roi_reached (cfg : ExitConfig) (elapsed : Nat) (profit : ℚ)
    (buy_signal : Bool) : Bool :=
  match roi_lookup cfg.minimal_roi elapsed with
  | none => false
  | some threshold =>
      decide (threshold ≤ profit) && !(cfg.ignore_roi_if_buy_signal && buy_signal)

/-- Modelled from the spec: the Exit Decision Engine — a pure function from
trade snapshot, candle, configuration and strategy signals to the updated
snapshot and a decision, evaluated in the fixed order
stoploss → ROI → sell-signal.  Profit is taken at `candle.close`. -/
def exit_decision (cfg : ExitConfig) (t : Trade) (c : Candle)
    (buy_signal sell_signal : Bool) : Trade × SellDecision :=
  let t2 := process_candle cfg t c
  if c.low ≤ t2.stoploss_rate then
    (t2, .exit_with
      (if trailing_reached cfg.stop t.open_rate (max t.max_rate c.high) then
        .TRAILING_STOP_LOSS
      else .STOPLOSS))
  else
    let elapsed := c.timestamp - t.open_timestamp
    let profit := current_profit cfg.fee t.open_rate c.close
    if roi_reached cfg elapsed profit buy_signal then
      (t2, .exit_with .ROI)
    else if sell_signal && (!cfg.sell_profit_only || decide (0 < profit)) then
      (t2, .exit_with .SELL_SIGNAL)
    else
      (t2, .hold)

/-- Modelled from the spec: the sequence of `stoploss_rate` values over a
trade's lifetime — one value after each processed candle, starting with
the current one. -/
def stoploss_trace (cfg : ExitConfig) (t : Trade) : List Candle → List ℚ
  | [] => [t.stoploss_rate]
  | c :: cs => t.stoploss_rate :: stoploss_trace cfg (process_candle cfg t c) cs

/-- Modelled from the spec: order side. -/
inductive OrderSide
  | buy
  | sell
  deriving DecidableEq, Repr

/-- Modelled from the spec: order status — pending, filled or cancelled. -/
inductive OrderStatus
  | pending
  | filled
  | cancelled
  deriving DecidableEq, Repr

/-- Modelled from the spec: an order record — identifier, side, requested
price and amount, filled amount, timestamp and status (the order model of
the engine is not shipped in the repository). -/
structure Order where
  id : Nat
  side : OrderSide
  price : ℚ
  amount : ℚ
  filled_amount : ℚ
  timestamp : Nat
  status : OrderStatus
  deriving DecidableEq, Repr

/-- Modelled from the spec: the states of the Trade State Machine. -/
inductive TradeState
  | PENDING_OPEN
  | OPEN
  | PENDING_CLOSE
  | CLOSED
  | CANCELLED
  deriving DecidableEq, Repr

/-- Modelled from the spec: a live-side trade — lifecycle state plus its
ordered list of orders. -/
structure LiveTrade where
  id : Nat
  pair : String
  state : TradeState
  orders : List Order
  deriving DecidableEq, Repr

/-- Modelled from the spec: effect of a fill event on one order — an order
matching the event's identifier and still pending becomes filled with the
event's amount; any other order is untouched (immutable once filled). -/
def fill_order (oid : Nat) (amt : ℚ) (o : Order) : Order :=
  if o.id = oid ∧ o.status = OrderStatus.pending then
    { o with status := OrderStatus.filled, filled_amount := amt }
  else o

/-- Modelled from the spec: lifecycle transition caused by a fill — a buy
fill moves PENDING_OPEN to OPEN, a sell fill moves PENDING_CLOSE to CLOSED,
every other state is unchanged. -/
def state_after_fill (side : OrderSide) (s : TradeState) : TradeState :=
  match side, s with
  | OrderSide.buy, TradeState.PENDING_OPEN => TradeState.OPEN
  | OrderSide.sell, TradeState.PENDING_CLOSE => TradeState.CLOSED
  | _, s => s

/-- Modelled from the spec: application of a fill event to a trade,
deduplicated by order identifier — the event acts only when the referenced
order is still pending; replaying it against an order already marked filled
has no further effect. -/
def apply_fill (t : LiveTrade) (oid : Nat) (amt : ℚ) : LiveTrade :=
  match t.orders.find?
      (fun o => decide (o.id = oid) && decide (o.status = OrderStatus.pending)) with
  | none => t
  | some o =>
      { t with
        orders := t.orders.map (fill_order oid amt),
        state := state_after_fill o.side t.state }

/-- Modelled from the spec: the opening order of a trade is its (first) buy
order. -/
def opening_order (t : LiveTrade) : Option Order :=
  t.orders.find? (fun o => decide (o.side = OrderSide.buy))

/-- Modelled from the spec: `unfilledtimeout` configuration, in minutes
(field names follow the configuration template in the repository). -/
structure TimeoutConfig where
  buy : Nat
  sell : Nat
  deriving DecidableEq, Repr

/-- Modelled from the spec: order-timeout handling for the opening buy order
— a trade whose opening order is still unfilled more than
`unfilledtimeout.buy` minutes after submission moves to CANCELLED and the
order is cancelled; all other trades are left untouched. -/
def check_buy_timeout (timeouts : TimeoutConfig) (now : Nat)
    (t : LiveTrade) : LiveTrade :=
  match opening_order t with
  | none => t
  | some o =>
      if o.status = OrderStatus.pending ∧ o.timestamp + timeouts.buy < now ∧
          (t.state = TradeState.PENDING_OPEN ∨ t.state = TradeState.OPEN) then
        { t with
          state := TradeState.CANCELLED,
          orders := t.orders.map (fun o' =>
            if o'.id = o.id then { o' with status := OrderStatus.cancelled }
            else o') }
      else t

/-- Modelled from the spec: the error taxonomy of the order-execution
adapter. -/
inductive AdapterError
  | RateLimited
  | NetworkError
  | InsufficientFunds
  | InvalidOrder
  deriving DecidableEq, Repr

/-- Modelled from the spec: RECOVERABLE errors are the network and
rate-limit ones; they are retried, the others abort the action. -/
def recoverable : AdapterError → Bool
  | AdapterError.RateLimited => true
  | AdapterError.NetworkError => true
  | AdapterError.InsufficientFunds => false
  | AdapterError.InvalidOrder => false

/-- Modelled from the spec: the bounded-retry combinator wrapping adapter
calls — attempt the call, and on a RECOVERABLE error retry while the
attempt budget lasts; a non-recoverable error or an exhausted budget gives
the action up with the last error. -/
def retry_call {α : Type} (call : Nat → Except AdapterError α) :
    Nat → Nat → Except AdapterError α
  | attempt, 0 => call attempt
  | attempt, budget + 1 =>
      match call attempt with
      | Except.ok a => Except.ok a
      | Except.error e =>
          if recoverable e then retry_call call (attempt + 1) budget
          else Except.error e

/-- Modelled from the spec: one tick action against the adapter — the loop
awaits the (retried) adapter result and only then commits the state change;
a failed call leaves the trade exactly in its prior state. -/
def tick_action (t : LiveTrade) (budget : Nat)
    (call : Nat → Except AdapterError Order)
    (commit : LiveTrade → Order → LiveTrade) : LiveTrade :=
  match retry_call call 0 budget with
  | Except.ok o => commit t o
  | Except.error _ => t

/-- Modelled from the spec: the `edge.*` configuration block (field names
follow the configuration template in the repository). -/
structure EdgeConfig where
  stoploss_range_min : ℚ
  stoploss_range_max : ℚ
  stoploss_range_step : ℚ
  minimum_winrate : ℚ
  minimum_expectancy : ℚ
  min_trade_number : Nat
  capital_available_percentage : ℚ
  allowed_risk : ℚ
  deriving DecidableEq, Repr

/-- Modelled from the spec: the per-pair historical statistics produced by
re-running exit logic with one candidate stoploss — win rate, expectancy
and number of closed trades. -/
structure PairStats where
  winrate : ℚ
  expectancy : ℚ
  nb_trades : Nat
  deriving DecidableEq, Repr

/-- Modelled from the spec: the swept candidate stoplosses
`min, min + step, …` covering the configured range up to `max`
(the configured step is negative, walking from the range minimum down to
the range maximum). -/
def stoploss_range (rmin rmax step : ℚ) : List ℚ :=
  (List.range (⌊(rmax - rmin) / step⌋.toNat + 1)).map
    (fun i : ℕ => rmin + (i : ℚ) * step)

/-- Modelled from the spec: the admission thresholds of the edge sizer —
`minimum_winrate`, `minimum_expectancy` and `min_trade_number`. -/
def qualifies (cfg : EdgeConfig) (s : PairStats) : Bool :=
  decide (cfg.minimum_winrate ≤ s.winrate) &&
  decide (cfg.minimum_expectancy ≤ s.expectancy) &&
  decide (cfg.min_trade_number ≤ s.nb_trades)

/-- Modelled from the spec: the answer of the edge sizer for one admitted
pair — chosen stoploss, its statistics, and the stake size. -/
structure EdgeResult where
  stoploss : ℚ
  winrate : ℚ
  expectancy : ℚ
  stake : ℚ
  deriving DecidableEq, Repr

/-- Modelled from the spec: the Edge Position Sizer for one pair — sweep
the configured stoploss range, keep the candidates passing the thresholds,
select the candidate maximizing expectancy, and size the stake as
`capital_available_percentage * total_capital * allowed_risk / |stoploss|`;
a pair with no qualifying candidate is excluded and receives no stoploss
or stake at all.  `evalStats` abstracts the re-run of the exit logic
against historical data with one candidate stoploss. -/
def edge_select (cfg : EdgeConfig) (total_capital : ℚ)
    (evalStats : ℚ → PairStats) : Option EdgeResult :=
  let candidates := stoploss_range cfg.stoploss_range_min
      cfg.stoploss_range_max cfg.stoploss_range_step
  let qualified := candidates.filter (fun sl => qualifies cfg (evalStats sl))
  match qualified.argmax (fun sl => (evalStats sl).expectancy) with
  | none => none
  | some sl =>
      some { stoploss := sl
             winrate := (evalStats sl).winrate
             expectancy := (evalStats sl).expectancy
             stake := cfg.capital_available_percentage * total_capital *
               cfg.allowed_risk / |sl| }

/-- Modelled from the spec: a historical candle together with the strategy's
buy and sell signals for it (the strategy is an external capability that
returns boolean series). -/
structure SignalCandle where
  candle : Candle
  buy_signal : Bool
  sell_signal : Bool
  deriving DecidableEq, Repr

/-- Modelled from the spec: per-pair candle histories fed to the backtest
simulator. -/
abbrev PairData := List (String × List SignalCandle)

/-- Modelled from the spec: backtest configuration — admission control
parameters, static stake and the shared exit-engine configuration. -/
structure BTConfig where
  max_open_trades : Nat
  enable_position_stacking : Bool
  stake_amount : ℚ
  exit_cfg : ExitConfig
  deriving DecidableEq, Repr

/-- Insertion of a timestamp into a sorted list, used by the chronological
merge. -/
def insert_sorted (x : Nat) : List Nat → List Nat
  | [] => [x]
  | y :: ys => if x ≤ y then x :: y :: ys else y :: insert_sorted x ys

/-- Insertion sort of timestamps, used by the chronological merge. -/
def sort_nat (l : List Nat) : List Nat :=
  l.foldr insert_sorted []

/-- Modelled from the spec: the single global chronological merge of all
pairs' candle streams — every timestamp occurring in the data, deduplicated
and sorted. -/
def merged_timestamps (data : PairData) : List Nat :=
  sort_nat ((data.map (fun pd => pd.2.map (fun sc => sc.candle.timestamp))).flatten).dedup

/-- Modelled from the spec: the candle (with signals) of a pair at one
timestamp of the merged timeline, when the pair has one. -/
def candle_at (data : PairData) (pair : String) (ts : Nat) : Option SignalCandle :=
  match data.lookup pair with
  | none => none
  | some cs => cs.find? (fun sc => decide (sc.candle.timestamp = ts))

/-- Modelled from the spec: the fill model without order-book simulation —
buys and sells fill at the next candle's open. -/
def next_open_rate (data : PairData) (pair : String) (ts : Nat) : Option ℚ :=
  match data.lookup pair with
  | none => none
  | some cs =>
      (cs.find? (fun sc => decide (ts < sc.candle.timestamp))).map
        (fun sc => sc.candle.open_price)

/-- Modelled from the spec: the simulator state — fresh identifier counter,
currently open trades, and the accumulated closed trades. -/
structure BTState where
  next_id : Nat
  open_trades : List Trade
  closed_trades : List Trade
  deriving DecidableEq, Repr

/-- Modelled from the spec: closing a trade in the simulator — record close
timestamp, fill rate and sell reason, and mark it no longer open. -/
def close_trade (t : Trade) (ts : Nat) (rate : ℚ) (reason : SellReason) : Trade :=
  { t with
    is_open := false
    close_timestamp := some ts
    close_rate := some rate
    sell_reason := some reason }

/-- Modelled from the spec: exit evaluation of one open trade at one
timestamp — run the shared Exit Decision Engine on the pair's candle; the
result is the updated trade and whether it was closed (filled at the next
candle's open, falling back to the candle close at the end of data). -/
def step_exit_one (cfg : BTConfig) (data : PairData) (ts : Nat)
    (t : Trade) : Trade × Bool :=
  match candle_at data t.pair ts with
  | none => (t, false)
  | some sc =>
      match exit_decision cfg.exit_cfg t sc.candle sc.buy_signal sc.sell_signal with
      | (t', SellDecision.hold) => (t', false)
      | (t', SellDecision.exit_with reason) =>
          (close_trade t' ts ((next_open_rate data t.pair ts).getD sc.candle.close)
            reason, true)

/-- Modelled from the spec: the exit phase of one timestamp — evaluate exits
for all open trades with the same Exit Decision Engine, keeping the still
open ones and appending the closed ones to the history. -/
def process_exits (cfg : BTConfig) (data : PairData) (ts : Nat)
    (st : BTState) : BTState :=
  let results := st.open_trades.map (step_exit_one cfg data ts)
  { st with
    open_trades := (results.filter (fun r => !r.2)).map (fun r => r.1)
    closed_trades := st.closed_trades ++ (results.filter (fun r => r.2)).map (fun r => r.1) }

/-- Modelled from the spec: a freshly opened simulated trade — filled at the
given rate, sized by the static stake, stoploss initialized to the static
value. -/
def open_new_trade (cfg : BTConfig) (id : Nat) (pair : String) (ts : Nat)
    (rate : ℚ) : Trade :=
  { id := id
    pair := pair
    open_rate := rate
    amount := cfg.stake_amount / rate
    stake_amount := cfg.stake_amount
    open_timestamp := ts
    stoploss_rate := static_stoploss_rate rate cfg.exit_cfg.stop.stoploss
    max_rate := rate
    min_rate := rate
    is_open := true
    close_timestamp := none
    close_rate := none
    sell_reason := none }

/-- Whether the simulator already holds an open trade on the pair. -/
def has_open_pair (st : BTState) (pair : String) : Bool :=
  st.open_trades.any (fun t => decide (t.pair = pair))

/-- Modelled from the spec: admission and entry for one whitelisted pair at
one timestamp — a buy signal opens a new trade only when a slot is
available (`open_trade_count < max_open_trades`, unless position stacking
is enabled) and, without stacking, the pair is not already held; the entry
fills at the next candle's open. -/
def try_enter (cfg : BTConfig) (data : PairData) (ts : Nat)
    (st : BTState) (pair : String) : BTState :=
  match candle_at data pair ts with
  | none => st
  | some sc =>
      if sc.buy_signal &&
          (cfg.enable_position_stacking ||
            decide (st.open_trades.length < cfg.max_open_trades)) &&
          (cfg.enable_position_stacking || !(has_open_pair st pair)) then
        match next_open_rate data pair ts with
        | none => st
        | some rate =>
            { st with
              next_id := st.next_id + 1
              open_trades := st.open_trades ++
                [open_new_trade cfg st.next_id pair ts rate] }
      else st

/-- Modelled from the spec: the entry phase of one timestamp — evaluate new
entries in pair-whitelist order for a deterministic tie-break. -/
def process_entries (cfg : BTConfig) (data : PairData) (ts : Nat)
    (whitelist : List String) (st : BTState) : BTState :=
  whitelist.foldl (try_enter cfg data ts) st

/-- Modelled from the spec: one timestamp of the merged timeline — exits for
all open trades first, then new entries for available slots. -/
def backtest_step (cfg : BTConfig) (data : PairData) (whitelist : List String)
    (st : BTState) (ts : Nat) : BTState :=
  process_entries cfg data ts whitelist (process_exits cfg data ts st)

/-- Modelled from the spec: the Backtest Simulator — fold the per-timestamp
step over the single chronological merge of all pairs' candle streams,
starting from the empty state. -/
def backtest_run (cfg : BTConfig) (whitelist : List String)
    (data : PairData) : BTState :=
  (merged_timestamps data).foldl (backtest_step cfg data whitelist)
    { next_id := 0, open_trades := [], closed_trades := [] }

/-- Modelled from the spec: the trade list produced by a backtest — the
closed trades followed by the trades still open at the end of data. -/
def backtest_trades (cfg : BTConfig) (whitelist : List String)
    (data : PairData) : List Trade :=
  (backtest_run cfg whitelist data).closed_trades ++
    (backtest_run cfg whitelist data).open_trades

/-- Concrete test configuration: `stoploss = -0.10`, trailing disabled,
empty ROI table, no fees, no experimental flags. -/
def staticCfg : ExitConfig :=
  { minimal_roi := []
    stop :=
      { stoploss := -(1/10)
        trailing_stop := false
        trailing_stop_positive := 0
        trailing_stop_positive_offset := 0
        trailing_only_offset_is_reached := false }
    fee := 0
    sell_profit_only := false
    ignore_roi_if_buy_signal := false }

/-- Concrete test configuration with the trailing stop enabled. -/
def trailingCfg : ExitConfig :=
  { minimal_roi := []
    stop :=
      { stoploss := -(1/10)
        trailing_stop := true
        trailing_stop_positive := 1/50
        trailing_stop_positive_offset := 1/100
        trailing_only_offset_is_reached := true }
    fee := 0
    sell_profit_only := false
    ignore_roi_if_buy_signal := false }

/-- Concrete test trade opened at rate 100 with the static stoploss 90. -/
def sampleTrade : Trade :=
  { id := 1
    pair := "ETH/BTC"
    open_rate := 100
    amount := 1
    stake_amount := 100
    open_timestamp := 0
    stoploss_rate := 90
    max_rate := 100
    min_rate := 100
    is_open := true
    close_timestamp := none
    close_rate := none
    sell_reason := none }

/-- Concrete test candle with `low = 89`, breaching the stoploss 90. -/
def breachCandle : Candle :=
  { pair := "ETH/BTC", timestamp := 5, open_price := 95, high := 96, low := 89,
    close := 90, volume := 1 }

/-- Concrete test candle with `low = 90.5`, above the stoploss 90. -/
def safeCandle : Candle :=
  { pair := "ETH/BTC", timestamp := 5, open_price := 95, high := 96, low := 181/2,
    close := 91, volume := 1 }

/-- Concrete test candles with rising highs, for the trailing ratchet. -/
def risingCandles : List Candle :=
  [ { pair := "ETH/BTC", timestamp := 5, open_price := 100, high := 102, low := 100,
      close := 101, volume := 1 },
    { pair := "ETH/BTC", timestamp := 10, open_price := 101, high := 105, low := 101,
      close := 104, volume := 1 } ]

/-- Concrete test order: a still-pending buy submitted at minute 0. -/
def pendingBuyOrder : Order :=
  { id := 7, side := OrderSide.buy, price := 100, amount := 1, filled_amount := 0,
    timestamp := 0, status := OrderStatus.pending }

/-- Concrete test trade waiting on `pendingBuyOrder`. -/
def pendingOpenTrade : LiveTrade :=
  { id := 1, pair := "ETH/BTC", state := TradeState.PENDING_OPEN,
    orders := [pendingBuyOrder] }

/-- Concrete test timeouts: `unfilledtimeout.buy = 10`,
`unfilledtimeout.sell = 30` (values of the configuration template). -/
def sampleTimeouts : TimeoutConfig :=
  { buy := 10, sell := 30 }

/-- Concrete test adapter call that always fails with a network error. -/
def failingCall : Nat → Except AdapterError Order :=
  fun _ => Except.error AdapterError.NetworkError

/-- Concrete test commit function marking the trade OPEN. -/
def openCommit : LiveTrade → Order → LiveTrade :=
  fun t _ => { t with state := TradeState.OPEN }

/-- Concrete test edge configuration: a one-candidate sweep at −0.01,
winrate ≥ 0.60, expectancy ≥ 0.20, at least 10 trades. -/
def sampleEdgeCfg : EdgeConfig :=
  { stoploss_range_min := -(1/100)
    stoploss_range_max := -(1/100)
    stoploss_range_step := -(1/100)
    minimum_winrate := 3/5
    minimum_expectancy := 1/5
    min_trade_number := 10
    capital_available_percentage := 1/2
    allowed_risk := 1/100 }

/-- Concrete test historical statistics, identical for every candidate. -/
def sampleEdgeStats : ℚ → PairStats :=
  fun _ => { winrate := 7/10, expectancy := 3/10, nb_trades := 20 }

/-- Concrete test candle history for one pair with a buy at minute 0 and a
sell signal at minute 5. -/
def sampleData : PairData :=
  [("ETH/BTC",
    [ { candle := { pair := "ETH/BTC", timestamp := 0, open_price := 100,
                    high := 101, low := 99, close := 100, volume := 1 },
        buy_signal := true,
        sell_signal := false },
      { candle := { pair := "ETH/BTC", timestamp := 5, open_price := 100,
                    high := 102, low := 100, close := 101, volume := 1 },
        buy_signal := false,
        sell_signal := true } ])]

/-- Concrete test answer of the edge sizer on the sample inputs. -/
def sampleEdgeResult : EdgeResult :=
  { stoploss := -(1/100), winrate := 7/10, expectancy := 3/10, stake := 500 }

/-- Concrete test whitelist. -/
def sampleWhitelist : List String := ["ETH/BTC"]

/-- Concrete test backtest configuration: one slot, no stacking. -/
def sampleBTConfig : BTConfig :=
  { max_open_trades := 1
    enable_position_stacking := false
    stake_amount := 100
    exit_cfg := staticCfg }

lemma trailing_reached_off (s : StoplossConfig) (h : s.trailing_stop = false)
    (open_rate max_rate : ℚ) : trailing_reached s open_rate max_rate = false := by
  simp [trailing_reached, h]

lemma process_candle_stoploss_of_off (cfg : ExitConfig) (t : Trade) (c : Candle)
    (h : cfg.stop.trailing_stop = false) :
    (process_candle cfg t c).stoploss_rate =
      static_stoploss_rate t.open_rate cfg.stop.stoploss := by
  simp [process_candle, update_rates, updated_stoploss, trailing_reached_off _ h]

/-- C3: when a stoploss breach (`candle.low` at or below the recomputed
effective stoploss rate) and a strategy sell signal occur on the same
candle, the Exit Decision Engine exits with STOPLOSS (or
TRAILING_STOP_LOSS when the rate came from the trailing update), never
SELL_SIGNAL — stoploss is evaluated before the sell signal. -/
theorem stoploss_precedes_sell_signal (cfg : ExitConfig) (t : Trade) (c : Candle)
    (buy_signal : Bool)
    (h_breach : c.low ≤ (process_candle cfg t c).stoploss_rate) :
    (exit_decision cfg t c buy_signal true).2 =
        SellDecision.exit_with SellReason.STOPLOSS ∨
      (exit_decision cfg t c buy_signal true).2 =
        SellDecision.exit_with SellReason.TRAILING_STOP_LOSS := by
  simp only [exit_decision]
  rw [if_pos h_breach]
  cases htr : trailing_reached cfg.stop t.open_rate (max t.max_rate c.high) <;>
    simp [htr]

/-- C3 witness: a concrete breaching candle with an active sell signal. -/
theorem stoploss_precedes_sell_signal_witness :
    breachCandle.low ≤ (process_candle staticCfg sampleTrade breachCandle).stoploss_rate ∧
      ((exit_decision staticCfg sampleTrade breachCandle false true).2 =
          SellDecision.exit_with SellReason.STOPLOSS ∨
        (exit_decision staticCfg sampleTrade breachCandle false true).2 =
          SellDecision.exit_with SellReason.TRAILING_STOP_LOSS) :=
  have hb : breachCandle.low ≤
      (process_candle staticCfg sampleTrade breachCandle).stoploss_rate := by
    norm_num [process_candle, update_rates, updated_stoploss, trailing_reached,
      static_stoploss_rate, staticCfg, sampleTrade, breachCandle]
  ⟨hb, stoploss_precedes_sell_signal staticCfg sampleTrade breachCandle false hb⟩

/-- C9: with a static (non-trailing) stoploss the engine exits with reason
STOPLOSS exactly when `candle.low ≤ open_rate * (1 + stoploss)`; in
particular with `stoploss = -0.10` and `open_rate = 100` a candle with
`low = 89` triggers STOPLOSS while a candle with `low = 90.5` does not. -/
theorem static_stoploss_triggers_iff (cfg : ExitConfig) (t : Trade) (c : Candle)
    (buy_signal sell_signal : Bool) (h_tr : cfg.stop.trailing_stop = false) :
    ((exit_decision cfg t c buy_signal sell_signal).2 =
          SellDecision.exit_with SellReason.STOPLOSS ↔
        c.low ≤ static_stoploss_rate t.open_rate cfg.stop.stoploss) ∧
      (exit_decision staticCfg sampleTrade breachCandle false false).2 =
        SellDecision.exit_with SellReason.STOPLOSS ∧
      (exit_decision staticCfg sampleTrade safeCandle false false).2 =
        SellDecision.hold := by
  refine ⟨?_, ?_, ?_⟩
  case refine_2 =>
    norm_num [exit_decision, process_candle, update_rates, updated_stoploss,
      trailing_reached, static_stoploss_rate, roi_reached, roi_lookup,
      current_profit, staticCfg, sampleTrade, breachCandle]
  case refine_3 =>
    norm_num [exit_decision, process_candle, update_rates, updated_stoploss,
      trailing_reached, static_stoploss_rate, roi_reached, roi_lookup,
      current_profit, staticCfg, sampleTrade, safeCandle]
  simp only [exit_decision]
  rw [process_candle_stoploss_of_off cfg t c h_tr]
  by_cases hb : c.low ≤ static_stoploss_rate t.open_rate cfg.stop.stoploss
  · rw [if_pos hb]
    simp [trailing_reached_off _ h_tr, hb]
  · rw [if_neg hb]
    split_ifs <;> simp [hb]

/-- C9 witness: the general characterization applied to the concrete
breaching candle. -/
theorem static_stoploss_triggers_iff_witness :
    staticCfg.stop.trailing_stop = false ∧
      ((exit_decision staticCfg sampleTrade breachCandle false false).2 =
          SellDecision.exit_with SellReason.STOPLOSS ↔
        breachCandle.low ≤
          static_stoploss_rate sampleTrade.open_rate staticCfg.stop.stoploss) :=
  ⟨rfl, (static_stoploss_triggers_iff staticCfg sampleTrade breachCandle
    false false rfl).1⟩

/-- C8: the ROI lookup selects an entry of the table whose threshold is the
largest key at most the elapsed minutes; in particular with the table
`{0: 0.04, 20: 0.02, 30: 0.01, 40: 0.0}` and 25 elapsed minutes it returns
0.02. -/
theorem roi_lookup_largest_key (table : List (Nat × ℚ)) (elapsed : Nat) (v : ℚ)
    (h : roi_lookup table elapsed = some v) :
    (∃ k, (k, v) ∈ table ∧ k ≤ elapsed ∧
        ∀ kv ∈ table, kv.1 ≤ elapsed → kv.1 ≤ k) ∧
      roi_lookup [(0, 1/25), (20, 1/50), (30, 1/100), (40, 0)] 25 = some (1/50) := by
  refine ⟨?_, rfl⟩
  unfold roi_lookup at h
  rw [Option.map_eq_some'] at h
  obtain ⟨kv, hkv, hv⟩ := h
  have hkv' : kv ∈ (table.filter (fun kv => decide (kv.1 ≤ elapsed))).argmax
      (fun kv => kv.1) := Option.mem_def.mpr hkv
  have hmem := List.argmax_mem hkv'
  rw [List.mem_filter] at hmem
  obtain ⟨htab, hle⟩ := hmem
  refine ⟨kv.1, ?_, by simpa using hle, ?_⟩
  · have heq : (kv.1, v) = kv := by
      cases kv
      cases hv
      rfl
    rw [heq]
    exact htab
  · intro kv' htab' hle'
    have hmemf : kv' ∈ table.filter (fun kv => decide (kv.1 ≤ elapsed)) :=
      List.mem_filter.mpr ⟨htab', by simpa using hle'⟩
    have hnlt := List.not_lt_of_mem_argmax hmemf hkv'
    omega

/-- C8 witness: the maximal-key property instantiated at the documented
table with 25 elapsed minutes. -/
theorem roi_lookup_largest_key_witness :
    roi_lookup [(0, 1/25), (20, 1/50), (30, 1/100), (40, 0)] 25 = some (1/50) ∧
      ∃ k, (k, (1/50 : ℚ)) ∈ [((0 : Nat), (1/25 : ℚ)), (20, 1/50), (30, 1/100), (40, 0)] ∧
        k ≤ 25 ∧
        ∀ kv ∈ [((0 : Nat), (1/25 : ℚ)), (20, 1/50), (30, 1/100), (40, 0)],
          kv.1 ≤ 25 → kv.1 ≤ k :=
  ⟨rfl, (roi_lookup_largest_key
    [(0, 1/25), (20, 1/50), (30, 1/100), (40, 0)] 25 (1/50) rfl).1⟩

/-- C5: a trade whose opening buy order is still unfilled more than
`unfilledtimeout.buy` minutes after submission is transitioned to
CANCELLED by the timeout check, and in particular does not end up in (or
remain in) the OPEN state. -/
theorem buy_timeout_cancels (timeouts : TimeoutConfig) (now : Nat)
    (t : LiveTrade) (o : Order) (h_open : opening_order t = some o)
    (h_unfilled : o.status = OrderStatus.pending)
    (h_old : o.timestamp + timeouts.buy < now)
    (h_state : t.state = TradeState.PENDING_OPEN ∨ t.state = TradeState.OPEN) :
    (check_buy_timeout timeouts now t).state = TradeState.CANCELLED ∧
      (check_buy_timeout timeouts now t).state ≠ TradeState.OPEN := by
  unfold check_buy_timeout
  rw [h_open]
  simp [if_pos (And.intro h_unfilled (And.intro h_old h_state))]

/-- C5 witness: a pending buy from minute 0 with a 10-minute timeout,
checked at minute 11. -/
theorem buy_timeout_cancels_witness :
    opening_order pendingOpenTrade = some pendingBuyOrder ∧
      pendingBuyOrder.timestamp + sampleTimeouts.buy < 11 ∧
      (check_buy_timeout sampleTimeouts 11 pendingOpenTrade).state =
        TradeState.CANCELLED :=
  ⟨rfl, by decide,
    (buy_timeout_cancels sampleTimeouts 11 pendingOpenTrade pendingBuyOrder
      rfl rfl (by decide) (Or.inl rfl)).1⟩

/-- C6: a tick action whose adapter call still fails after the bounded
retry budget is exhausted commits no mutation — the trade is returned
exactly in its prior state. -/
theorem failed_action_leaves_trade_unchanged (t : LiveTrade) (budget : Nat)
    (call : Nat → Except AdapterError Order)
    (commit : LiveTrade → Order → LiveTrade) (e : AdapterError)
    (h_fail : retry_call call 0 budget = Except.error e) :
    tick_action t budget call commit = t := by
  unfold tick_action
  rw [h_fail]

/-- C6 witness: an always-failing call with a budget of two retries leaves
the trade untouched. -/
theorem failed_action_leaves_trade_unchanged_witness :
    retry_call failingCall 0 2 = Except.error AdapterError.NetworkError ∧
      tick_action pendingOpenTrade 2 failingCall openCommit = pendingOpenTrade :=
  ⟨rfl, failed_action_leaves_trade_unchanged pendingOpenTrade 2 failingCall
    openCommit AdapterError.NetworkError rfl⟩

lemma find_pending_after_fill (orders : List Order) (oid : Nat) (amt : ℚ) :
    (orders.map (fill_order oid amt)).find?
        (fun o => decide (o.id = oid) && decide (o.status = OrderStatus.pending)) =
      none := by
  rw [List.find?_eq_none]
  intro o' hmem
  rw [List.mem_map] at hmem
  obtain ⟨o₀, _, rfl⟩ := hmem
  unfold fill_order
  split_ifs with h
  · simp
  · simp only [Bool.and_eq_true, decide_eq_true_eq, not_and]
    intro hid hst
    exact h ⟨hid, hst⟩

/-- C7: applying the same fill event twice is the same as applying it once
— the event is deduplicated by order identifier, so replaying a fill
against an order already marked filled changes neither the trade state nor
any order. -/
theorem apply_fill_idempotent (t : LiveTrade) (oid : Nat) (amt : ℚ) :
    apply_fill (apply_fill t oid amt) oid amt = apply_fill t oid amt := by
  cases hf : t.orders.find?
      (fun o => decide (o.id = oid) && decide (o.status = OrderStatus.pending)) with
  | none =>
      have h1 : apply_fill t oid amt = t := by
        unfold apply_fill
        rw [hf]
      rw [h1, h1]
  | some o =>
      have h1 : apply_fill t oid amt =
          { t with
            orders := t.orders.map (fill_order oid amt),
            state := state_after_fill o.side t.state } := by
        unfold apply_fill
        rw [hf]
      rw [h1]
      unfold apply_fill
      rw [show ({ t with
            orders := t.orders.map (fill_order oid amt),
            state := state_after_fill o.side t.state } : LiveTrade).orders =
          t.orders.map (fill_order oid amt) from rfl]
      rw [find_pending_after_fill]

lemma trailing_reached_mono (s : StoplossConfig) (open_rate mr mr' : ℚ)
    (hor : 0 < open_rate) (hmr : mr ≤ mr')
    (h : trailing_reached s open_rate mr = true) :
    trailing_reached s open_rate mr' = true := by
  simp only [trailing_reached, Bool.and_eq_true, Bool.or_eq_true,
    Bool.not_eq_true', decide_eq_true_eq] at h ⊢
  obtain ⟨h1, h2⟩ := h
  refine ⟨h1, ?_⟩
  rcases h2 with h2 | h2
  · exact Or.inl h2
  · refine Or.inr (le_trans h2 ?_)
    gcongr

lemma stoploss_step_mono (cfg : ExitConfig) (t : Trade) (c : Candle)
    (hor : 0 < t.open_rate)
    (hI : t.stoploss_rate = static_stoploss_rate t.open_rate cfg.stop.stoploss ∨
      trailing_reached cfg.stop t.open_rate t.max_rate = true) :
    t.stoploss_rate ≤ (process_candle cfg t c).stoploss_rate ∧
      ((process_candle cfg t c).stoploss_rate =
          static_stoploss_rate (process_candle cfg t c).open_rate
            cfg.stop.stoploss ∨
        trailing_reached cfg.stop (process_candle cfg t c).open_rate
          (process_candle cfg t c).max_rate = true) := by
  have hval : (process_candle cfg t c).stoploss_rate =
      if trailing_reached cfg.stop t.open_rate (max t.max_rate c.high) then
        max t.stoploss_rate
          ((max t.max_rate c.high) * (1 - cfg.stop.trailing_stop_positive))
      else static_stoploss_rate t.open_rate cfg.stop.stoploss := rfl
  have hopen : (process_candle cfg t c).open_rate = t.open_rate := rfl
  have hmax : (process_candle cfg t c).max_rate = max t.max_rate c.high := rfl
  cases htr : trailing_reached cfg.stop t.open_rate (max t.max_rate c.high) with
  | true =>
      rw [hval, htr, if_pos rfl]
      exact ⟨le_max_left _ _, Or.inr (by rw [hopen, hmax]; exact htr)⟩
  | false =>
      have hstat : t.stoploss_rate =
          static_stoploss_rate t.open_rate cfg.stop.stoploss := by
        rcases hI with hI | hI
        · exact hI
        · exact absurd (trailing_reached_mono cfg.stop t.open_rate t.max_rate
            (max t.max_rate c.high) hor (le_max_left _ _) hI)
            (by rw [htr]; simp)
      rw [hval, htr, if_neg (by simp)]
      exact ⟨le_of_eq hstat, Or.inl (by rw [hopen])⟩

lemma stoploss_trace_head (cfg : ExitConfig) (t : Trade) (cs : List Candle) :
    (stoploss_trace cfg t cs).head? = some t.stoploss_rate := by
  cases cs <;> rfl

lemma stoploss_trace_chain (cfg : ExitConfig) (cs : List Candle) (t : Trade)
    (hor : 0 < t.open_rate)
    (hI : t.stoploss_rate = static_stoploss_rate t.open_rate cfg.stop.stoploss ∨
      trailing_reached cfg.stop t.open_rate t.max_rate = true) :
    List.Chain' (· ≤ ·) (stoploss_trace cfg t cs) := by
  induction cs generalizing t with
  | nil => simp [stoploss_trace]
  | cons c cs ih =>
      rw [stoploss_trace, List.chain'_cons']
      obtain ⟨hle, hI'⟩ := stoploss_step_mono cfg t c hor hI
      refine ⟨?_, ih (process_candle cfg t c) hor hI'⟩
      intro b hb
      rw [stoploss_trace_head] at hb
      simp only [Option.mem_def, Option.some.injEq] at hb
      rw [← hb]
      exact hle

/-- C4: for a trade with the trailing stop enabled (positive open rate,
stoploss initialized to the static value), the sequence of `stoploss_rate`
values over any list of processed candles is monotonically non-decreasing
— the trailing update only ever raises the effective stoploss. -/
theorem trailing_stoploss_monotone (cfg : ExitConfig) (t : Trade)
    (cs : List Candle) (h_tr : cfg.stop.trailing_stop = true)
    (h_or : 0 < t.open_rate)
    (h_init : t.stoploss_rate =
      static_stoploss_rate t.open_rate cfg.stop.stoploss) :
    List.Chain' (· ≤ ·) (stoploss_trace cfg t cs) :=
  stoploss_trace_chain cfg cs t h_or (Or.inl h_init)

/-- C4 witness: the trailing configuration ratcheting over two rising
candles. -/
theorem trailing_stoploss_monotone_witness :
    trailingCfg.stop.trailing_stop = true ∧ 0 < sampleTrade.open_rate ∧
      sampleTrade.stoploss_rate =
        static_stoploss_rate sampleTrade.open_rate trailingCfg.stop.stoploss ∧
      List.Chain' (· ≤ ·) (stoploss_trace trailingCfg sampleTrade risingCandles) :=
  ⟨rfl, by norm_num [sampleTrade],
    by norm_num [sampleTrade, trailingCfg, static_stoploss_rate],
    trailing_stoploss_monotone trailingCfg sampleTrade risingCandles rfl
      (by norm_num [sampleTrade])
      (by norm_num [sampleTrade, trailingCfg, static_stoploss_rate])⟩

lemma process_exits_length_le (cfg : BTConfig) (data : PairData) (ts : Nat)
    (st : BTState) :
    (process_exits cfg data ts st).open_trades.length ≤ st.open_trades.length := by
  simp only [process_exits, List.length_map]
  exact le_trans (List.length_filter_le _ _)
    (le_of_eq (List.length_map _ _))

lemma try_enter_length_le (cfg : BTConfig) (data : PairData) (ts : Nat)
    (st : BTState) (pair : String) (h_stack : cfg.enable_position_stacking = false)
    (h : st.open_trades.length ≤ cfg.max_open_trades) :
    (try_enter cfg data ts st pair).open_trades.length ≤ cfg.max_open_trades := by
  unfold try_enter
  cases hc : candle_at data pair ts with
  | none => exact h
  | some sc =>
      dsimp only
      split_ifs with hcond
      · cases hnext : next_open_rate data pair ts with
        | none => exact h
        | some rate =>
            simp only [h_stack, Bool.false_or, Bool.and_eq_true,
              decide_eq_true_eq] at hcond
            simp only [List.length_append, List.length_singleton]
            omega
      · exact h

lemma process_entries_length_le (cfg : BTConfig) (data : PairData) (ts : Nat)
    (whitelist : List String) (st : BTState)
    (h_stack : cfg.enable_position_stacking = false)
    (h : st.open_trades.length ≤ cfg.max_open_trades) :
    (process_entries cfg data ts whitelist st).open_trades.length ≤
      cfg.max_open_trades := by
  induction whitelist generalizing st with
  | nil => exact h
  | cons p ps ih =>
      simp only [process_entries, List.foldl_cons] at ih ⊢
      exact ih _ (try_enter_length_le cfg data ts st p h_stack h)

lemma backtest_step_length_le (cfg : BTConfig) (data : PairData)
    (whitelist : List String) (st : BTState) (ts : Nat)
    (h_stack : cfg.enable_position_stacking = false)
    (h : st.open_trades.length ≤ cfg.max_open_trades) :
    (backtest_step cfg data whitelist st ts).open_trades.length ≤
      cfg.max_open_trades :=
  process_entries_length_le cfg data ts whitelist _ h_stack
    (le_trans (process_exits_length_le cfg data ts st) h)

/-- C2: with position stacking disabled, the number of simultaneously open
trades never exceeds `max_open_trades` — the invariant is preserved by
every simulated timeline from every state satisfying it, and holds in
particular for the full backtest run started from the empty state; a buy
is admitted only when `open_trade_count < max_open_trades`. -/
theorem max_open_trades_bound (cfg : BTConfig) (data : PairData)
    (whitelist : List String) (h_stack : cfg.enable_position_stacking = false) :
    (∀ (tss : List Nat) (st : BTState),
        st.open_trades.length ≤ cfg.max_open_trades →
        (tss.foldl (backtest_step cfg data whitelist) st).open_trades.length ≤
          cfg.max_open_trades) ∧
      (backtest_run cfg whitelist data).open_trades.length ≤
        cfg.max_open_trades := by
  have hfold : ∀ (tss : List Nat) (st : BTState),
      st.open_trades.length ≤ cfg.max_open_trades →
      (tss.foldl (backtest_step cfg data whitelist) st).open_trades.length ≤
        cfg.max_open_trades := by
    intro tss
    induction tss with
    | nil => exact fun st h => h
    | cons ts tss ih =>
        intro st h
        simp only [List.foldl_cons]
        exact ih _ (backtest_step_length_le cfg data whitelist st ts h_stack h)
  exact ⟨hfold, hfold (merged_timestamps data) _ (Nat.zero_le _)⟩

/-- C2 witness: the bound for the concrete one-slot backtest. -/
theorem max_open_trades_bound_witness :
    sampleBTConfig.enable_position_stacking = false ∧
      (backtest_run sampleBTConfig sampleWhitelist sampleData).open_trades.length ≤
        sampleBTConfig.max_open_trades :=
  ⟨rfl, (max_open_trades_bound sampleBTConfig sampleData sampleWhitelist rfl).2⟩

/-- C1: the Backtest Simulator is deterministic — it is a pure function of
its input, so two runs on identical configuration, whitelist and candle
histories produce identical trade lists, with no dependence on wall-clock
time or iteration order. -/
theorem backtest_deterministic (cfg cfg' : BTConfig) (wl wl' : List String)
    (data data' : PairData) (hc : cfg = cfg') (hw : wl = wl')
    (hd : data = data') :
    backtest_trades cfg wl data = backtest_trades cfg' wl' data' := by
  subst hc
  subst hw
  subst hd
  rfl

/-- C1 witness: two runs on the concrete sample input coincide. -/
theorem backtest_deterministic_witness :
    sampleBTConfig = sampleBTConfig ∧
      backtest_trades sampleBTConfig sampleWhitelist sampleData =
        backtest_trades sampleBTConfig sampleWhitelist sampleData :=
  ⟨rfl, backtest_deterministic sampleBTConfig sampleBTConfig sampleWhitelist
    sampleWhitelist sampleData sampleData rfl rfl rfl⟩

lemma stoploss_range_mem_bounds (rmin rmax step sl : ℚ) (h_step : step < 0)
    (h_dir : rmax ≤ rmin) (hmem : sl ∈ stoploss_range rmin rmax step) :
    rmax ≤ sl ∧ sl ≤ rmin := by
  unfold stoploss_range at hmem
  rw [List.mem_map] at hmem
  obtain ⟨i, hi, rfl⟩ := hmem
  rw [List.mem_range] at hi
  have hq : (0 : ℚ) ≤ (rmax - rmin) / step := by
    rw [div_nonneg_iff]
    exact Or.inr ⟨by linarith, h_step.le⟩
  constructor
  · have hfl : (0 : ℤ) ≤ ⌊(rmax - rmin) / step⌋ := Int.le_floor.mpr (by
      exact_mod_cast hq)
    have hiz : (i : ℤ) ≤ ⌊(rmax - rmin) / step⌋ := by
      have hi' : i ≤ ⌊(rmax - rmin) / step⌋.toNat := Nat.lt_succ_iff.mp hi
      omega
    have hcast : (i : ℚ) ≤ (rmax - rmin) / step := by
      calc (i : ℚ) = ((i : ℤ) : ℚ) := by norm_cast
        _ ≤ (⌊(rmax - rmin) / step⌋ : ℚ) := by exact_mod_cast hiz
        _ ≤ (rmax - rmin) / step := Int.floor_le _
    have hmul := mul_le_mul_of_nonpos_right hcast h_step.le
    rw [div_mul_cancel₀ _ (ne_of_lt h_step)] at hmul
    linarith
  · have : (i : ℚ) * step ≤ 0 :=
      mul_nonpos_of_nonneg_of_nonpos (by positivity) h_step.le
    linarith

/-- C10: the Edge Position Sizer, when it admits a pair, returns a stoploss
taken from the swept candidate range — between `stoploss_range_max` and
`stoploss_range_min` for the configured downward sweep (negative step) —
and that stoploss passes the `minimum_winrate`, `minimum_expectancy` and
`min_trade_number` thresholds; a pair with no qualifying candidate gets no
result at all. -/
theorem edge_stoploss_within_range (cfg : EdgeConfig) (total_capital : ℚ)
    (evalStats : ℚ → PairStats) (res : EdgeResult)
    (h_step : cfg.stoploss_range_step < 0)
    (h_dir : cfg.stoploss_range_max ≤ cfg.stoploss_range_min)
    (h_sel : edge_select cfg total_capital evalStats = some res) :
    (cfg.stoploss_range_max ≤ res.stoploss ∧
        res.stoploss ≤ cfg.stoploss_range_min) ∧
      qualifies cfg (evalStats res.stoploss) = true := by
  unfold edge_select at h_sel
  dsimp only at h_sel
  cases hargmax : ((stoploss_range cfg.stoploss_range_min cfg.stoploss_range_max
      cfg.stoploss_range_step).filter
        (fun sl => qualifies cfg (evalStats sl))).argmax
      (fun sl => (evalStats sl).expectancy) with
  | none =>
      rw [hargmax] at h_sel
      exact absurd h_sel (by simp)
  | some sl =>
      rw [hargmax] at h_sel
      simp only [Option.some.injEq] at h_sel
      have hmem := List.argmax_mem (Option.mem_def.mpr hargmax)
      rw [List.mem_filter] at hmem
      obtain ⟨hcand, hqual⟩ := hmem
      have hsl : res.stoploss = sl := by rw [← h_sel]
      rw [hsl]
      exact ⟨stoploss_range_mem_bounds _ _ _ _ h_step h_dir hcand, hqual⟩

/-- C10 witness: the one-candidate sweep admitting the sample pair. -/
theorem edge_stoploss_within_range_witness :
    edge_select sampleEdgeCfg 1000 sampleEdgeStats = some sampleEdgeResult ∧
      (sampleEdgeCfg.stoploss_range_max ≤ sampleEdgeResult.stoploss ∧
          sampleEdgeResult.stoploss ≤ sampleEdgeCfg.stoploss_range_min) ∧
        qualifies sampleEdgeCfg (sampleEdgeStats sampleEdgeResult.stoploss) = true := by
  have habs : |(-(1/100) : ℚ)| = 1/100 := by
    rw [abs_neg]
    exact abs_of_pos (by norm_num)
  have hsel : edge_select sampleEdgeCfg 1000 sampleEdgeStats =
      some sampleEdgeResult := by
    norm_num [edge_select, stoploss_range, qualifies, sampleEdgeCfg,
      sampleEdgeStats, sampleEdgeResult, habs, List.range_succ]
  exact ⟨hsel, edge_stoploss_within_range sampleEdgeCfg 1000 sampleEdgeStats
    sampleEdgeResult (by norm_num [sampleEdgeCfg]) (by norm_num [sampleEdgeCfg])
    hsel⟩
